import Mathlib

/-!
Shallow embedding of `ec2.py` from mansam/ansible-ec2-inventory.

The script builds two Python dictionaries while scanning cloud resources:
`inventory` (group name to list of addresses, a `defaultdict(list)`) and
`index` (address to `[region, instance id]`).  Dictionaries are modelled as
insertion-ordered association lists with Python assignment semantics
(`dictSet` replaces an existing binding in place, otherwise appends at the
end), which matches both lookup results and key order of CPython dicts.
Strings are Lean `String`s; Python truthiness of optional string attributes
(`None` or the empty string are falsy) is modelled by `truthy`.
-/

namespace EC2Inventory

/-- Python dict with string keys, as an insertion-ordered association list. -/
abbrev Dict (α : Type) : Type := List (String × α)

/-- Dictionary lookup, `d[k]` / `k in d`. -/
def dictLookup {α : Type} : Dict α → String → Option α
  | [], _ => none
  | (k', v) :: d, k => if k' = k then some v else dictLookup d k

/-- The keys of a dictionary, in insertion order. -/
def dictKeys {α : Type} (d : Dict α) : List String :=
  d.map Prod.fst

/-- Dictionary assignment `d[k] = v`: replaces an existing binding in place,
otherwise appends the new binding at the end (CPython dict semantics). -/
def dictSet {α : Type} : Dict α → String → α → Dict α
  | [], k, v => [(k, v)]
  | (k', v') :: d, k, v => if k' = k then (k', v) :: d else (k', v') :: dictSet d k v

/-- Reading a key from a `defaultdict(list)`: a missing key denotes `[]`. -/
def dGetDefault (d : Dict (List String)) (k : String) : List String :=
  (dictLookup d k).getD []

/-- `d[k].append(x)` on a `defaultdict(list)`. -/
def dAppend (d : Dict (List String)) (k : String) (x : String) : Dict (List String) :=
  dictSet d k (dGetDefault d k ++ [x])

/-- A `for` loop appending `dest` to the group `f b` for each `b` in `xs`
(the security group, tag and Route53 loops of `add_instance`). -/
def appendAll {β : Type} (f : β → String) (dest : String)
    (inventory : Dict (List String)) (xs : List β) : Dict (List String) :=
  xs.foldl (fun inv b => dAppend inv (f b) dest) inventory

/-- Python truthiness of an optional string attribute: `None` and `""` are falsy. -/
def truthy (o : Option String) : Bool :=
  match o with
  | none => false
  | some s => decide (s ≠ "")

/-- The character class `[A-Za-z0-9-]` of the regular expression in `to_safe`
(ec2.py line 411): ASCII letter, digit or hyphen. -/
def safeChar (c : Char) : Bool :=
  ('A' ≤ c && c ≤ 'Z') || ('a' ≤ c && c ≤ 'z') || ('0' ≤ c && c ≤ '9') || (c == '-')

/-- `to_safe` (ec2.py lines 404-411), the sanitizer
`re.sub("[^A-Za-z0-9-]", "_", word)`: every character outside the class is
replaced by an underscore.  A single-character class with a single-character
replacement is exactly a character map. -/
def to_safe (word : String) : String :=
  String.mk (word.data.map (fun c => if safeChar c then c else '_'))

/-- A raw EC2 instance record (the boto attributes read by `add_instance`).
Optional string attributes model boto fields that may be `None`; `groups` is
the list of security-group names, `tags` the tag dictionary as key/value
pairs, `instance_profile` the profile ARN when the instance has a profile
dictionary. -/
structure Instance where
  id : String
  state : String
  subnet_id : Option String
  public_dns_name : Option String
  private_dns_name : Option String
  ip_address : Option String
  private_ip_address : Option String
  placement : String
  instance_type : String
  key_name : Option String
  groups : List String
  tags : List (String × String)
  instance_profile : Option String
deriving DecidableEq, Repr

/-- A raw RDS instance record (the boto attributes read by
`add_rds_instance`).  `endpoint_addr` is `instance.endpoint[0]`, the host
part of the endpoint pair; `security_group` is the security group name when
the instance has one; `parameter_group` is `instance.parameter_group.name`. -/
structure RDSInstance where
  id : String
  status : String
  endpoint_addr : Option String
  availability_zone : String
  instance_class : String
  security_group : Option String
  engine : String
  parameter_group : String
deriving DecidableEq, Repr

/-- `getattr(instance, name)` for the address-bearing attribute names the
configuration can select. -/
def getattr_address (inst : Instance) (name : String) : Option String :=
  if name = "public_dns_name" then inst.public_dns_name
  else if name = "private_dns_name" then inst.private_dns_name
  else if name = "ip_address" then inst.ip_address
  else if name = "private_ip_address" then inst.private_ip_address
  else none

/-- Destination-address selection of `add_instance` (ec2.py lines 179-183):
the VPC address variable when `instance.subnet_id` is truthy, the plain
address variable otherwise.  `hv` and `vv` are the configured
`host_address_variable` and `vpc_host_address_variable`. -/
def selectDest (hv vv : String) (inst : Instance) : Option String :=
  if truthy inst.subnet_id then getattr_address inst vv else getattr_address inst hv

/-- One step of the loop in `get_instance_route53_names`: skip a missing
attribute, look the value up in the record map, and union the matching
domain names into the accumulated set.  The Python `set` is modelled as a
duplicate-free list with `setUpdate` as `set.update`. -/
def r53Step (route53_records : Dict (List String)) (name_list : List String)
    (value? : Option String) : List String :=
  match value? with
  | none => name_list
  | some value =>
    match dictLookup route53_records value with
    | none => name_list
    | some names => names.foldl (fun acc x => if x ∈ acc then acc else acc ++ [x]) name_list

/-- `get_instance_route53_names` (ec2.py lines 307-329): collect into a set
the domain names the record map associates with any of the four
address-bearing attributes of the instance, skipping missing attributes. -/
def get_instance_route53_names (inst : Instance)
    (route53_records : Dict (List String)) : List String :=
  [inst.public_dns_name, inst.private_dns_name,
   inst.ip_address, inst.private_ip_address].foldl (r53Step route53_records) []

/-- The key-pair group write of `add_instance` (ec2.py lines 203-205):
`if instance.key_name:` guards the write, so `None` and the empty string
both skip it. -/
def keyNameGroup (dest : String) (inventory : Dict (List String))
    (key_name : Option String) : Dict (List String) :=
  match key_name with
  | some key_name =>
    if key_name ≠ "" then dAppend inventory (to_safe ("key_" ++ key_name)) dest
    else inventory
  | none => inventory

/-- The Route53 group writes of `add_instance` (ec2.py lines 222-225):
`if records:` is Python dict truthiness, so the block runs only for a
present, non-empty record map. -/
def route53Groups (inst : Instance) (dest : String) (inventory : Dict (List String))
    (records : Option (Dict (List String))) : Dict (List String) :=
  match records with
  | some recs =>
    if recs ≠ [] then
      appendAll (fun n => n) dest inventory (get_instance_route53_names inst recs)
    else inventory
  | none => inventory

/-- The instance-profile group write of `add_instance` (ec2.py lines
227-229): guarded by `if instance.instance_profile:`; the group value is the
last `/`-separated component of the profile ARN. -/
def profileGroup (dest : String) (inventory : Dict (List String))
    (instance_profile : Option String) : Dict (List String) :=
  match instance_profile with
  | some arn =>
    dAppend inventory (to_safe ("profile_" ++ ((arn.splitOn "/").getLastD ""))) dest
  | none => inventory

/-- `add_instance` (ec2.py lines 168-231).  The state guard, address
selection, index write and every inventory group write are translated in
source order. -/
def add_instance (hv vv : String) (inst : Instance) (region : String)
    (inventory : Dict (List String)) (index : Dict (String × String))
    (records : Option (Dict (List String))) :
    Dict (List String) × Dict (String × String) :=
  if inst.state ≠ "running" then (inventory, index)
  else
    match selectDest hv vv inst with
    | none => (inventory, index)
    | some dest =>
      if dest = "" then (inventory, index)
      else
        let index := dictSet index dest (region, inst.id)
        let inventory := dictSet inventory inst.id [dest]
        let inventory := dAppend inventory region dest
        let inventory := dAppend inventory inst.placement dest
        let inventory := dAppend inventory (to_safe ("type_" ++ inst.instance_type)) dest
        let inventory := keyNameGroup dest inventory inst.key_name
        let inventory :=
          appendAll (fun g => to_safe ("security_group_" ++ g)) dest inventory inst.groups
        let inventory :=
          appendAll (fun kv => to_safe ("tag_" ++ kv.1 ++ "=" ++ kv.2)) dest inventory inst.tags
        let inventory := route53Groups inst dest inventory records
        let inventory := profileGroup dest inventory inst.instance_profile
        (inventory, index)

/-- The security-group write of `add_rds_instance` (ec2.py lines 263-266):
guarded by `if instance.security_group:`, truthiness of the boto object,
i.e. presence. -/
def rdsSecurityGroup (dest : String) (inventory : Dict (List String))
    (security_group : Option String) : Dict (List String) :=
  match security_group with
  | some gname => dAppend inventory (to_safe ("security_group_" ++ gname)) dest
  | none => inventory

/-- `add_rds_instance` (ec2.py lines 233-276), translated in source order.
`records` is accepted and ignored exactly as in the source. -/
def add_rds_instance (inst : RDSInstance) (region : String)
    (inventory : Dict (List String)) (index : Dict (String × String))
    (records : Option (Dict (List String))) :
    Dict (List String) × Dict (String × String) :=
  if inst.status ≠ "available" then (inventory, index)
  else
    match inst.endpoint_addr with
    | none => (inventory, index)
    | some dest =>
      if dest = "" then (inventory, index)
      else
        let index := dictSet index dest (region, inst.id)
        let inventory := dictSet inventory inst.id [dest]
        let inventory := dAppend inventory region dest
        let inventory := dAppend inventory inst.availability_zone dest
        let inventory := dAppend inventory (to_safe ("type_" ++ inst.instance_class)) dest
        let inventory := rdsSecurityGroup dest inventory inst.security_group
        let inventory := dAppend inventory (to_safe ("rds_" ++ inst.engine)) dest
        let inventory := dAppend inventory (to_safe ("rds_parameter_group_" ++ inst.parameter_group)) dest
        (inventory, index)

/-- A resource processed during a refresh: either an EC2 instance or an RDS
instance. -/
inductive Resource where
  | ec2 (inst : Instance)
  | rds (inst : RDSInstance)
deriving DecidableEq, Repr

/-- The resource id written into the index entry. -/
def resId : Resource → String
  | .ec2 i => i.id
  | .rds i => i.id

/-- The availability-zone group key of a resource. -/
def zoneOf : Resource → String
  | .ec2 i => i.placement
  | .rds i => i.availability_zone

/-- Liveness filter: running EC2 instances, available RDS instances. -/
def isLive : Resource → Bool
  | .ec2 i => decide (i.state = "running")
  | .rds i => decide (i.status = "available")

/-- The primary address the grouping layer selects for a resource. -/
def destOf (hv vv : String) : Resource → Option String
  | .ec2 i => selectDest hv vv i
  | .rds i => i.endpoint_addr

/-- One `add_instance` / `add_rds_instance` call on the shared state. -/
def addResource (hv vv region : String) (records : Option (Dict (List String)))
    (st : Dict (List String) × Dict (String × String)) (r : Resource) :
    Dict (List String) × Dict (String × String) :=
  match r with
  | .ec2 i => add_instance hv vv i region st.1 st.2 records
  | .rds i => add_rds_instance i region st.1 st.2 records

/-- A whole refresh: `update_inventory` starts from two empty dictionaries
and performs one add call per discovered resource, each tagged with the
region it was fetched from. -/
def processAll (hv vv : String) (records : Option (Dict (List String)))
    (rs : List (String × Resource)) :
    Dict (List String) × Dict (String × String) :=
  rs.foldl (fun st rr => addResource hv vv rr.1 records st rr.2) ([], [])

/-- True when processing the resource writes an index entry: it is live and
its selected primary address is truthy. -/
def writesSomething (hv vv : String) (r : Resource) : Bool :=
  isLive r && decide ((destOf hv vv r).getD "" ≠ "")

/-- True when processing the tagged resource writes the index entry of
address `a`. -/
def writesAddr (hv vv a : String) (rr : String × Resource) : Bool :=
  isLive rr.2 && decide (destOf hv vv rr.2 = some a) && decide (a ≠ "")

/-- `cache_expired` (ec2.py lines 389-402) with the file-system state made
explicit: existence of the two cache files, the modification time of the
primary cache file, the current time and the configured maximum age. -/
def cache_expired (cache_file_exists : Bool) (mod_time current_time cache_max_age : Int)
    (index_file_exists : Bool) : Bool :=
  if cache_file_exists then
    if mod_time + cache_max_age > current_time then
      if index_file_exists then false
      else true
    else true
  else true

/-- Result of `get_host_info` (ec2.py lines 332-343) up to the point where
it either answers or goes to the network: `Sum.inl` is the early return of
the serialized empty JSON object for an unknown host, `Sum.inr (region, id)`
is the `(region, instance_id)` resolved from the index with which the
function proceeds to fetch live instance details. -/
def get_host_info (index cached_index : Dict (String × String)) (host : String) :
    String ⊕ (String × String) :=
  let index := if index.isEmpty then cached_index else index
  match dictLookup index host with
  | none => Sum.inl "\x7b\x7d"
  | some ri => Sum.inr ri

/-- A Route53 hosted zone as returned by `r53.get_zones()`. -/
structure Route53Zone where
  id : String
deriving DecidableEq, Repr

/-- `get_route53_records` (ec2.py lines 278-304).  The body of the per-zone
loop begins with `r53_conn.get_all_rrsets(zone.id)`, but `r53_conn` is never
bound anywhere in the module (the connection was bound to `r53`), so the
first loop iteration raises `NameError`; with an empty zone list the loop
body never runs and the empty record map is returned. -/
def get_route53_records (zones : List Route53Zone) :
    Except String (Dict (List String)) :=
  match zones with
  | [] => Except.ok []
  | _ :: _ => Except.error "NameError: global name r53_conn is not defined"

/-- The Route53 step of `update_inventory` (ec2.py lines 419-422): fetch the
record map when `use_route53` is configured, otherwise proceed with no
records.  An exception from `get_route53_records` propagates and aborts the
refresh. -/
def update_inventory_route53 (use_route53 : Bool) (zones : List Route53Zone) :
    Except String (Option (Dict (List String))) :=
  if use_route53 then (get_route53_records zones).map some
  else Except.ok none

/-- The fixed group-name prefixes occurring in `add_instance` and
`add_rds_instance`. -/
def fixedGroupPrefixes : List String :=
  ["type_", "key_", "security_group_", "tag_", "profile_", "rds_", "rds_parameter_group_"]

/-! ## Dictionary lemmas -/

theorem dictLookup_set_self {α : Type} (d : Dict α) (k : String) (v : α) :
    dictLookup (dictSet d k v) k = some v := by
  induction d with
  | nil => simp [dictSet, dictLookup]
  | cons kv d ih =>
    obtain ⟨k', v'⟩ := kv
    by_cases h : k' = k
    · simp [dictSet, dictLookup, h]
    · simp [dictSet, dictLookup, h, ih]

theorem dictLookup_set_ne {α : Type} (d : Dict α) (k g : String) (v : α) (h : g ≠ k) :
    dictLookup (dictSet d k v) g = dictLookup d g := by
  induction d with
  | nil =>
    simp only [dictSet, dictLookup]
    rw [if_neg fun hh => h hh.symm]
  | cons kv d ih =>
    obtain ⟨k', v'⟩ := kv
    by_cases hk : k' = k
    · subst hk
      simp only [dictSet, if_pos rfl, dictLookup]
      rw [if_neg (fun hh : k' = g => h hh.symm), if_neg (fun hh : k' = g => h hh.symm)]
    · simp only [dictSet, if_neg hk, dictLookup]
      by_cases hg : k' = g
      · rw [if_pos hg, if_pos hg]
      · rw [if_neg hg, if_neg hg, ih]

theorem mem_dictKeys_set {α : Type} (d : Dict α) (k g : String) (v : α) :
    g ∈ dictKeys (dictSet d k v) ↔ g = k ∨ g ∈ dictKeys d := by
  induction d with
  | nil => simp [dictSet, dictKeys]
  | cons kv d ih =>
    obtain ⟨k', v'⟩ := kv
    simp only [dictKeys] at ih ⊢
    by_cases hk : k' = k
    · subst hk
      simp only [dictSet, List.map_cons, List.mem_cons]
      simp only [if_true]
      simp only [List.map_cons, List.mem_cons]
      tauto
    · simp only [dictSet, if_neg hk, List.map_cons, List.mem_cons]
      rw [ih]
      tauto

theorem dictKeys_set_nodup {α : Type} (d : Dict α) (k : String) (v : α)
    (h : (dictKeys d).Nodup) : (dictKeys (dictSet d k v)).Nodup := by
  induction d with
  | nil => simp [dictSet, dictKeys]
  | cons kv d ih =>
    obtain ⟨k', v'⟩ := kv
    simp only [dictKeys, List.map_cons, List.nodup_cons] at h
    by_cases hk : k' = k
    · subst hk
      simp only [dictSet, dictKeys]
      simp only [if_true]
      simp only [List.map_cons, List.nodup_cons]
      exact h
    · simp only [dictSet, if_neg hk, dictKeys, List.map_cons, List.nodup_cons]
      constructor
      · intro hmem
        have := (mem_dictKeys_set d k k' v).mp (by simpa [dictKeys] using hmem)
        rcases this with hh | hh
        · exact hk hh
        · exact h.1 (by simpa [dictKeys] using hh)
      · have := ih (by simpa [dictKeys] using h.2)
        simpa [dictKeys] using this

theorem mem_dictKeys_of_lookup {α : Type} (d : Dict α) (a : String) (v : α)
    (h : dictLookup d a = some v) : a ∈ dictKeys d := by
  induction d with
  | nil => simp [dictLookup] at h
  | cons kv d ih =>
    obtain ⟨k', v'⟩ := kv
    simp only [dictKeys, List.map_cons, List.mem_cons]
    by_cases hk : k' = a
    · exact Or.inl hk.symm
    · simp only [dictLookup, if_neg hk] at h
      have := ih h
      simp only [dictKeys] at this
      exact Or.inr this

theorem dictLookup_eq_none_of_not_mem {α : Type} (d : Dict α) (a : String)
    (h : a ∉ dictKeys d) : dictLookup d a = none := by
  induction d with
  | nil => rfl
  | cons kv d ih =>
    obtain ⟨k', v'⟩ := kv
    simp only [dictKeys, List.map_cons, List.mem_cons, not_or] at h
    simp only [dictLookup]
    rw [if_neg fun hh : k' = a => h.1 hh.symm]
    exact ih (by simpa [dictKeys] using h.2)

theorem dGetDefault_dAppend_self (d : Dict (List String)) (k x : String) :
    dGetDefault (dAppend d k x) k = dGetDefault d k ++ [x] := by
  simp [dAppend, dGetDefault, dictLookup_set_self]

theorem dictLookup_dAppend_ne (d : Dict (List String)) (k g x : String) (h : g ≠ k) :
    dictLookup (dAppend d k x) g = dictLookup d g :=
  dictLookup_set_ne _ _ _ _ h

theorem dGetDefault_dAppend_ne (d : Dict (List String)) (k g x : String) (h : g ≠ k) :
    dGetDefault (dAppend d k x) g = dGetDefault d g := by
  simp [dGetDefault, dictLookup_dAppend_ne _ _ _ _ h]

theorem mem_dGetDefault_dAppend (d : Dict (List String)) (k g x a : String)
    (h : a ∈ dGetDefault (dAppend d k x) g) : a ∈ dGetDefault d g ∨ a = x := by
  by_cases hg : g = k
  · subst hg
    rw [dGetDefault_dAppend_self] at h
    rcases List.mem_append.mp h with h | h
    · exact Or.inl h
    · exact Or.inr (List.mem_singleton.mp h)
  · rw [dGetDefault_dAppend_ne _ _ _ _ hg] at h
    exact Or.inl h

theorem mem_dGetDefault_set_singleton (d : Dict (List String)) (k g x a : String)
    (h : a ∈ dGetDefault (dictSet d k [x]) g) : a ∈ dGetDefault d g ∨ a = x := by
  by_cases hg : g = k
  · subst hg
    rw [dGetDefault, dictLookup_set_self] at h
    exact Or.inr (List.mem_singleton.mp h)
  · rw [dGetDefault, dictLookup_set_ne _ _ _ _ hg] at h
    exact Or.inl h

theorem dictLookup_appendAll_ne {β : Type} (f : β → String) (x : String)
    (xs : List β) (d : Dict (List String)) (g : String)
    (h : ∀ b ∈ xs, g ≠ f b) :
    dictLookup (appendAll f x d xs) g = dictLookup d g := by
  induction xs generalizing d with
  | nil => rfl
  | cons b xs ih =>
    rw [show appendAll f x d (b :: xs) = appendAll f x (dAppend d (f b) x) xs from rfl,
      ih _ fun b' hb' => h b' (List.mem_cons_of_mem _ hb'),
      dictLookup_dAppend_ne _ _ _ _ (h b (List.mem_cons_self _ _))]

theorem mem_dGetDefault_appendAll {β : Type} (f : β → String) (x : String)
    (xs : List β) (d : Dict (List String)) (g a : String)
    (h : a ∈ dGetDefault (appendAll f x d xs) g) : a ∈ dGetDefault d g ∨ a = x := by
  induction xs generalizing d with
  | nil => exact Or.inl h
  | cons b xs ih =>
    rcases ih (dAppend d (f b) x) h with hh | hh
    · exact mem_dGetDefault_dAppend _ _ _ _ _ hh
    · exact Or.inr hh

/-! ## Sanitizer lemmas -/

theorem safeRep_fix (c : Char) :
    (if safeChar (if safeChar c then c else '_') then (if safeChar c then c else '_') else '_')
      = (if safeChar c then c else '_') := by
  by_cases h : safeChar c
  · simp [h]
  · simp [h]

theorem to_safe_append (a b : String) : to_safe (a ++ b) = to_safe a ++ to_safe b := by
  cases a with
  | mk la =>
    cases b with
    | mk lb =>
      show String.mk ((la ++ lb).map _) = String.mk (la.map _ ++ lb.map _)
      rw [List.map_append]

theorem safeRep_comp_self :
    (fun c => if safeChar c then c else '_') ∘ (fun c => if safeChar c then c else '_')
      = fun c => if safeChar c then c else '_' := by
  funext c
  exact safeRep_fix c

/-- C6: sanitization is idempotent: for every string `w`,
`to_safe (to_safe w) = to_safe w`. -/
theorem to_safe_idempotent (w : String) : to_safe (to_safe w) = to_safe w := by
  cases w with
  | mk l =>
    show String.mk ((l.map _).map _) = String.mk (l.map _)
    rw [List.map_map, safeRep_comp_self]

/-! ## Small list helpers -/

theorem mem_of_getLast?_some {α : Type} (l : List α) (a : α) (h : l.getLast? = some a) :
    a ∈ l := by
  induction l with
  | nil => simp [List.getLast?] at h
  | cons b bs ih =>
    cases bs with
    | nil => simp at h; simp [h]
    | cons c cs =>
      rw [List.getLast?_cons_cons] at h
      exact List.mem_cons_of_mem _ (ih h)

theorem getLast?_some_of_ne_nil {α : Type} (l : List α) (h : l ≠ []) :
    ∃ x, l.getLast? = some x := by
  cases l with
  | nil => exact absurd rfl h
  | cons b bs => exact ⟨bs.getLast?.getD b, List.getLast?_cons⟩

/-! ## Behaviour of one add call -/

theorem add_instance_skip_not_running (hv vv : String) (inst : Instance) (region : String)
    (inventory : Dict (List String)) (index : Dict (String × String))
    (records : Option (Dict (List String))) (h : ¬ inst.state = "running") :
    add_instance hv vv inst region inventory index records = (inventory, index) := by
  simp [add_instance, h]

theorem add_instance_skip_no_dest (hv vv : String) (inst : Instance) (region : String)
    (inventory : Dict (List String)) (index : Dict (String × String))
    (records : Option (Dict (List String))) (h : selectDest hv vv inst = none) :
    add_instance hv vv inst region inventory index records = (inventory, index) := by
  by_cases h1 : inst.state = "running"
  · simp [add_instance, h1, h]
  · exact add_instance_skip_not_running _ _ _ _ _ _ _ h1

theorem add_instance_skip_empty_dest (hv vv : String) (inst : Instance) (region : String)
    (inventory : Dict (List String)) (index : Dict (String × String))
    (records : Option (Dict (List String))) (h : selectDest hv vv inst = some "") :
    add_instance hv vv inst region inventory index records = (inventory, index) := by
  by_cases h1 : inst.state = "running"
  · simp [add_instance, h1, h]
  · exact add_instance_skip_not_running _ _ _ _ _ _ _ h1

theorem add_instance_index_eq (hv vv : String) (inst : Instance) (region : String)
    (inventory : Dict (List String)) (index : Dict (String × String))
    (records : Option (Dict (List String))) (d : String)
    (h1 : inst.state = "running") (h2 : selectDest hv vv inst = some d) (h3 : d ≠ "") :
    (add_instance hv vv inst region inventory index records).2
      = dictSet index d (region, inst.id) := by
  simp [add_instance, h1, h2, h3]

theorem add_rds_instance_skip_not_available (inst : RDSInstance) (region : String)
    (inventory : Dict (List String)) (index : Dict (String × String))
    (records : Option (Dict (List String))) (h : ¬ inst.status = "available") :
    add_rds_instance inst region inventory index records = (inventory, index) := by
  simp [add_rds_instance, h]

theorem add_rds_instance_skip_no_dest (inst : RDSInstance) (region : String)
    (inventory : Dict (List String)) (index : Dict (String × String))
    (records : Option (Dict (List String))) (h : inst.endpoint_addr = none) :
    add_rds_instance inst region inventory index records = (inventory, index) := by
  by_cases h1 : inst.status = "available"
  · simp [add_rds_instance, h1, h]
  · exact add_rds_instance_skip_not_available _ _ _ _ _ h1

theorem add_rds_instance_skip_empty_dest (inst : RDSInstance) (region : String)
    (inventory : Dict (List String)) (index : Dict (String × String))
    (records : Option (Dict (List String))) (h : inst.endpoint_addr = some "") :
    add_rds_instance inst region inventory index records = (inventory, index) := by
  by_cases h1 : inst.status = "available"
  · simp [add_rds_instance, h1, h]
  · exact add_rds_instance_skip_not_available _ _ _ _ _ h1

theorem add_rds_instance_index_eq (inst : RDSInstance) (region : String)
    (inventory : Dict (List String)) (index : Dict (String × String))
    (records : Option (Dict (List String))) (d : String)
    (h1 : inst.status = "available") (h2 : inst.endpoint_addr = some d) (h3 : d ≠ "") :
    (add_rds_instance inst region inventory index records).2
      = dictSet index d (region, inst.id) := by
  simp [add_rds_instance, h1, h2, h3]

theorem addResource_skip (hv vv region : String) (records : Option (Dict (List String)))
    (st : Dict (List String) × Dict (String × String)) (r : Resource)
    (h : writesSomething hv vv r = false) :
    addResource hv vv region records st r = st := by
  cases r with
  | ec2 i =>
    by_cases h1 : i.state = "running"
    · cases hsel : selectDest hv vv i with
      | none => exact add_instance_skip_no_dest hv vv i region st.1 st.2 records hsel
      | some dd =>
        have hdd : dd = "" := by
          simp [writesSomething, isLive, destOf, h1, hsel] at h
          exact h
        rw [hdd] at hsel
        exact add_instance_skip_empty_dest hv vv i region st.1 st.2 records hsel
    · exact add_instance_skip_not_running hv vv i region st.1 st.2 records h1
  | rds i =>
    by_cases h1 : i.status = "available"
    · cases hsel : i.endpoint_addr with
      | none => exact add_rds_instance_skip_no_dest i region st.1 st.2 records hsel
      | some dd =>
        have hdd : dd = "" := by
          simp [writesSomething, isLive, destOf, h1, hsel] at h
          exact h
        rw [hdd] at hsel
        exact add_rds_instance_skip_empty_dest i region st.1 st.2 records hsel
    · exact add_rds_instance_skip_not_available i region st.1 st.2 records h1

theorem addResource_index_eq (hv vv region : String) (records : Option (Dict (List String)))
    (st : Dict (List String) × Dict (String × String)) (r : Resource) (d : String)
    (h1 : isLive r = true) (h2 : destOf hv vv r = some d) (h3 : d ≠ "") :
    (addResource hv vv region records st r).2 = dictSet st.2 d (region, resId r) := by
  cases r with
  | ec2 i =>
    have h1' : i.state = "running" := by simpa [isLive] using h1
    exact add_instance_index_eq hv vv i region st.1 st.2 records d h1'
      (by simpa [destOf] using h2) h3
  | rds i =>
    have h1' : i.status = "available" := by simpa [isLive] using h1
    exact add_rds_instance_index_eq i region st.1 st.2 records d h1'
      (by simpa [destOf] using h2) h3

theorem writesSomething_iff (hv vv : String) (r : Resource) :
    writesSomething hv vv r = true
      ↔ isLive r = true ∧ ∃ d, destOf hv vv r = some d ∧ d ≠ "" := by
  constructor
  · intro h
    have h' : isLive r = true ∧ (destOf hv vv r).getD "" ≠ "" := by
      simpa [writesSomething] using h
    refine ⟨h'.1, ?_⟩
    cases hdo : destOf hv vv r with
    | none =>
      rw [hdo] at h'
      simp at h'
    | some d =>
      rw [hdo] at h'
      exact ⟨d, rfl, by simpa using h'.2⟩
  · rintro ⟨hl, d, hd, hne⟩
    simp [writesSomething, hl, hd, hne]

theorem writesAddr_iff (hv vv a : String) (rr : String × Resource) :
    writesAddr hv vv a rr = true
      ↔ isLive rr.2 = true ∧ destOf hv vv rr.2 = some a ∧ a ≠ "" := by
  simp [writesAddr, and_assoc]

theorem dictLookup_addResource_index (hv vv region : String)
    (records : Option (Dict (List String)))
    (st : Dict (List String) × Dict (String × String)) (r : Resource) (a : String) :
    dictLookup (addResource hv vv region records st r).2 a =
      if writesAddr hv vv a (region, r) then some (region, resId r)
      else dictLookup st.2 a := by
  by_cases hw : writesSomething hv vv r = true
  · obtain ⟨hl, d, hd, hne⟩ := (writesSomething_iff hv vv r).mp hw
    rw [addResource_index_eq hv vv region records st r d hl hd hne]
    by_cases ha : a = d
    · subst ha
      rw [dictLookup_set_self, if_pos ((writesAddr_iff hv vv a (region, r)).mpr ⟨hl, hd, hne⟩)]
    · rw [dictLookup_set_ne _ _ _ _ ha, if_neg]
      intro hwa
      obtain ⟨-, hda, -⟩ := (writesAddr_iff hv vv a (region, r)).mp hwa
      rw [hd] at hda
      exact ha (Option.some.inj hda).symm
  · rw [addResource_skip hv vv region records st r (by simpa using hw), if_neg]
    intro hwa
    obtain ⟨hl, hda, hane⟩ := (writesAddr_iff hv vv a (region, r)).mp hwa
    exact hw ((writesSomething_iff hv vv r).mpr ⟨hl, a, hda, hane⟩)

/-! ## The index over a whole refresh -/

theorem processAll_append_singleton (hv vv : String) (records : Option (Dict (List String)))
    (rs : List (String × Resource)) (rr : String × Resource) :
    processAll hv vv records (rs ++ [rr])
      = addResource hv vv rr.1 records (processAll hv vv records rs) rr.2 := by
  simp [processAll, List.foldl_append]

theorem processAll_index_lookup (hv vv : String) (records : Option (Dict (List String)))
    (rs : List (String × Resource)) (a : String) :
    dictLookup (processAll hv vv records rs).2 a =
      match (rs.filter (writesAddr hv vv a)).getLast? with
      | some rr => some (rr.1, resId rr.2)
      | none => none := by
  induction rs using List.reverseRecOn with
  | nil => rfl
  | append_singleton rs rr ih =>
    obtain ⟨reg, r⟩ := rr
    rw [processAll_append_singleton, dictLookup_addResource_index, List.filter_append]
    by_cases hw : writesAddr hv vv a (reg, r) = true
    · rw [if_pos hw]
      have hsingle : List.filter (writesAddr hv vv a) [(reg, r)] = [(reg, r)] := by
        simp [List.filter_cons, hw]
      rw [hsingle, List.getLast?_concat]
    · rw [if_neg hw, ih]
      have hw' : writesAddr hv vv a (reg, r) = false := by simpa using hw
      have hsingle : List.filter (writesAddr hv vv a) [(reg, r)] = [] := by
        simp [List.filter_cons, hw']
      rw [hsingle, List.append_nil]

theorem addResource_index_keys_nodup (hv vv region : String)
    (records : Option (Dict (List String)))
    (st : Dict (List String) × Dict (String × String)) (r : Resource)
    (h : (dictKeys st.2).Nodup) :
    (dictKeys (addResource hv vv region records st r).2).Nodup := by
  by_cases hw : writesSomething hv vv r = true
  · obtain ⟨hl, d, hd, hne⟩ := (writesSomething_iff hv vv r).mp hw
    rw [addResource_index_eq hv vv region records st r d hl hd hne]
    exact dictKeys_set_nodup _ _ _ h
  · rw [addResource_skip hv vv region records st r (by simpa using hw)]
    exact h

theorem processAll_index_keys_nodup (hv vv : String) (records : Option (Dict (List String)))
    (rs : List (String × Resource)) :
    (dictKeys (processAll hv vv records rs).2).Nodup := by
  have main : ∀ (l : List (String × Resource))
      (st : Dict (List String) × Dict (String × String)), (dictKeys st.2).Nodup →
      (dictKeys ((l.foldl (fun st rr => addResource hv vv rr.1 records st rr.2) st)).2).Nodup := by
    intro l
    induction l with
    | nil => intro st h; exact h
    | cons rr l ih =>
      intro st h
      exact ih _ (addResource_index_keys_nodup hv vv rr.1 records st rr.2 h)
  exact main rs ([], []) (by simp [dictKeys])

/-- C2: the index binds each address at most once (its key list is
duplicate-free), and when several processed resources resolve to the same
primary address, the final index maps that address to the (region, id) pair
of the last such resource in processing order. -/
theorem index_at_most_once_last_writer_wins (hv vv : String)
    (records : Option (Dict (List String))) (rs : List (String × Resource)) :
    (dictKeys (processAll hv vv records rs).2).Nodup ∧
    ∀ a rr, (rs.filter (writesAddr hv vv a)).getLast? = some rr →
      dictLookup (processAll hv vv records rs).2 a = some (rr.1, resId rr.2) := by
  refine ⟨processAll_index_keys_nodup hv vv records rs, ?_⟩
  intro a rr h
  rw [processAll_index_lookup, h]

/-- A running EC2 instance listening on `addr` as its public DNS name, used
as concrete input for witnesses. -/
def sampleInst (iid addr : String) : Instance :=
  ⟨iid, "running", none, some addr, none, none, none, "us-east-1a", "t2.micro",
   none, [], [], none⟩

/-- An available RDS instance with endpoint host `addr`, used as concrete
input for witnesses. -/
def sampleRDS (iid addr : String) : RDSInstance :=
  ⟨iid, "available", some addr, "us-east-1a", "db.t2.micro", none, "postgres", "default"⟩

theorem index_at_most_once_last_writer_wins_witness :
    (([(("r1" : String), Resource.ec2 (sampleInst "i-1" "host")),
       (("r2" : String), Resource.ec2 (sampleInst "i-2" "host"))].filter
         (writesAddr "public_dns_name" "private_dns_name" "host")).getLast?
       = some (("r2" : String), Resource.ec2 (sampleInst "i-2" "host"))) ∧
    dictLookup (processAll "public_dns_name" "private_dns_name" none
        [(("r1" : String), Resource.ec2 (sampleInst "i-1" "host")),
         (("r2" : String), Resource.ec2 (sampleInst "i-2" "host"))]).2 "host"
      = some ("r2", "i-2") :=
  ⟨by decide,
   (index_at_most_once_last_writer_wins "public_dns_name" "private_dns_name" none
      [(("r1" : String), Resource.ec2 (sampleInst "i-1" "host")),
       (("r2" : String), Resource.ec2 (sampleInst "i-2" "host"))]).2 "host"
      (("r2" : String), Resource.ec2 (sampleInst "i-2" "host")) (by decide)⟩

/-- C1: over a refresh in which every resource is live and has a truthy
primary address, each selected address ends up as a key of the index exactly
once, bound to the (region, id) pair of a resource in the refresh that
resolves to that very address (on collision, the last one; see the
last-writer theorem). -/
theorem refresh_index_exactly_once (hv vv : String)
    (records : Option (Dict (List String))) (rs : List (String × Resource))
    (hall : ∀ rr ∈ rs, writesSomething hv vv rr.2 = true) :
    ∀ rr ∈ rs, ∀ d, destOf hv vv rr.2 = some d → d ≠ "" →
      (dictKeys (processAll hv vv records rs).2).count d = 1 ∧
      ∃ rr' ∈ rs, destOf hv vv rr'.2 = some d ∧
        dictLookup (processAll hv vv records rs).2 d = some (rr'.1, resId rr'.2) := by
  intro rr hmem d hd hne
  have hlive : isLive rr.2 = true := ((writesSomething_iff hv vv rr.2).mp (hall rr hmem)).1
  have hwa : writesAddr hv vv d rr = true := (writesAddr_iff hv vv d rr).mpr ⟨hlive, hd, hne⟩
  have hfilter : rr ∈ rs.filter (writesAddr hv vv d) := List.mem_filter.mpr ⟨hmem, hwa⟩
  obtain ⟨rr'', hlast⟩ := getLast?_some_of_ne_nil _ (List.ne_nil_of_mem hfilter)
  have hlook : dictLookup (processAll hv vv records rs).2 d = some (rr''.1, resId rr''.2) := by
    rw [processAll_index_lookup, hlast]
  have hmem'' := List.mem_filter.mp (mem_of_getLast?_some _ _ hlast)
  obtain ⟨-, hd'', -⟩ := (writesAddr_iff hv vv d rr'').mp hmem''.2
  refine ⟨?_, rr'', hmem''.1, hd'', hlook⟩
  exact List.count_eq_one_of_mem (processAll_index_keys_nodup hv vv records rs)
    (mem_dictKeys_of_lookup _ _ _ hlook)

theorem refresh_index_exactly_once_witness :
    (∀ rr ∈ [(("r1" : String), Resource.ec2 (sampleInst "i-1" "h1")),
             (("r2" : String), Resource.rds (sampleRDS "d-1" "h2"))],
       writesSomething "public_dns_name" "private_dns_name" rr.2 = true) ∧
    ((dictKeys (processAll "public_dns_name" "private_dns_name" none
        [(("r1" : String), Resource.ec2 (sampleInst "i-1" "h1")),
         (("r2" : String), Resource.rds (sampleRDS "d-1" "h2"))]).2).count "h1" = 1 ∧
      ∃ rr' ∈ [(("r1" : String), Resource.ec2 (sampleInst "i-1" "h1")),
               (("r2" : String), Resource.rds (sampleRDS "d-1" "h2"))],
        destOf "public_dns_name" "private_dns_name" rr'.2 = some "h1" ∧
        dictLookup (processAll "public_dns_name" "private_dns_name" none
          [(("r1" : String), Resource.ec2 (sampleInst "i-1" "h1")),
           (("r2" : String), Resource.rds (sampleRDS "d-1" "h2"))]).2 "h1"
          = some (rr'.1, resId rr'.2)) :=
  ⟨by decide,
   refresh_index_exactly_once "public_dns_name" "private_dns_name" none
      [(("r1" : String), Resource.ec2 (sampleInst "i-1" "h1")),
       (("r2" : String), Resource.rds (sampleRDS "d-1" "h2"))] (by decide)
      (("r1" : String), Resource.ec2 (sampleInst "i-1" "h1")) (by decide)
      "h1" (by decide) (by decide)⟩

/-- C5: a live resource whose selected primary address is `None` or the
empty string is silently skipped: the add call returns with the inventory
and the index both completely unchanged. -/
theorem unaddressable_resource_no_effect (hv vv region : String)
    (records : Option (Dict (List String)))
    (st : Dict (List String) × Dict (String × String)) (r : Resource)
    (hlive : isLive r = true)
    (hdest : destOf hv vv r = none ∨ destOf hv vv r = some "") :
    addResource hv vv region records st r = st := by
  apply addResource_skip
  cases hdest with
  | inl h => simp [writesSomething, h]
  | inr h => simp [writesSomething, h]

theorem unaddressable_resource_no_effect_witness :
    (isLive (Resource.ec2 ⟨"i-9", "running", none, none, none, none, none,
        "us-east-1a", "t2.micro", none, [], [], none⟩) = true) ∧
    (destOf "public_dns_name" "private_dns_name"
        (Resource.ec2 ⟨"i-9", "running", none, none, none, none, none,
          "us-east-1a", "t2.micro", none, [], [], none⟩) = none ∨
     destOf "public_dns_name" "private_dns_name"
        (Resource.ec2 ⟨"i-9", "running", none, none, none, none, none,
          "us-east-1a", "t2.micro", none, [], [], none⟩) = some "") ∧
    addResource "public_dns_name" "private_dns_name" "us-east-1" none
        ([("g", ["x"])], [("a", ("us-east-1", "i-0"))])
        (Resource.ec2 ⟨"i-9", "running", none, none, none, none, none,
          "us-east-1a", "t2.micro", none, [], [], none⟩)
      = ([("g", ["x"])], [("a", ("us-east-1", "i-0"))]) :=
  ⟨by decide, by decide,
   unaddressable_resource_no_effect "public_dns_name" "private_dns_name" "us-east-1" none
      ([("g", ["x"])], [("a", ("us-east-1", "i-0"))])
      (Resource.ec2 ⟨"i-9", "running", none, none, none, none, none,
        "us-east-1a", "t2.micro", none, [], [], none⟩)
      (by decide) (by decide)⟩

/-- C3 counterexample: when the primary cache file's age equals the
configured max-age exactly (modification time 0, current time 300, max age
300) and both files exist, the code reports the cache expired, while the
claimed validity condition (both files exist and age at most max-age) holds,
so the claimed equivalence is false at this input. -/
theorem cache_expired_claim_false_at_boundary :
    ¬ ((cache_expired true 0 300 300 true = false) ↔
       (true = true ∧ true = true ∧ (300 : Int) - 0 ≤ 300)) := by
  decide

/-- C3 (amended): `cache_expired` reports the cache valid (returns `false`)
iff both cache files exist and the primary file's age is strictly less than
the configured max-age, i.e. `mod_time + cache_max_age > current_time`; in
every other case it returns `true` and a refresh is triggered. -/
theorem cache_expired_false_iff (f : Bool) (m n a : Int) (i : Bool) :
    cache_expired f m n a i = false ↔ (f = true ∧ i = true ∧ n - m < a) := by
  cases f with
  | false => simp [cache_expired]
  | true =>
    cases i with
    | false =>
      by_cases hmn : m + a > n <;> simp [cache_expired, hmn]
    | true =>
      by_cases hmn : m + a > n
      · simp only [cache_expired, if_pos hmn]
        constructor
        · intro _
          exact ⟨by simp, by simp, by omega⟩
        · intro _
          rfl
      · simp only [cache_expired, if_neg hmn]
        constructor
        · intro h
          exact absurd h (by simp)
        · rintro ⟨-, -, h⟩
          omega

/-- C7: a host absent from the keys of the effective index (the passed index,
or the cache-loaded one when the passed index is empty) makes `get_host_info`
return the serialized empty JSON object instead of raising. -/
theorem unknown_host_empty_object (index cached_index : Dict (String × String))
    (host : String)
    (h : host ∉ dictKeys (if index.isEmpty then cached_index else index)) :
    get_host_info index cached_index host = Sum.inl "\x7b\x7d" := by
  have hnone := dictLookup_eq_none_of_not_mem _ _ h
  simp only [get_host_info, hnone]

theorem unknown_host_empty_object_witness :
    (("h2" : String) ∉ dictKeys (if ([(("h1" : String), (("r" : String), ("i" : String)))] :
        Dict (String × String)).isEmpty then ([] : Dict (String × String))
      else [(("h1" : String), (("r" : String), ("i" : String)))])) ∧
    get_host_info [(("h1" : String), (("r" : String), ("i" : String)))] [] "h2"
      = Sum.inl "\x7b\x7d" :=
  ⟨by decide,
   unknown_host_empty_object [(("h1" : String), (("r" : String), ("i" : String)))] [] "h2"
     (by decide)⟩

/-- C10: whenever Route53 use is enabled and the provider returns at least
one hosted zone, `get_route53_records` raises `NameError` (the per-zone loop
reads record sets through the undefined name `r53_conn`), so the refresh
fails instead of producing DNS groups. -/
theorem route53_refresh_name_error (zones : List Route53Zone) (h : zones ≠ []) :
    get_route53_records zones
        = Except.error "NameError: global name r53_conn is not defined" ∧
    update_inventory_route53 true zones
        = Except.error "NameError: global name r53_conn is not defined" := by
  cases zones with
  | nil => exact absurd rfl h
  | cons z zs => exact ⟨rfl, rfl⟩

theorem route53_refresh_name_error_witness :
    ([Route53Zone.mk "Z1"] ≠ ([] : List Route53Zone)) ∧
    (get_route53_records [Route53Zone.mk "Z1"]
        = Except.error "NameError: global name r53_conn is not defined" ∧
     update_inventory_route53 true [Route53Zone.mk "Z1"]
        = Except.error "NameError: global name r53_conn is not defined") :=
  ⟨by decide, route53_refresh_name_error [Route53Zone.mk "Z1"] (by decide)⟩

/-! ## Route53 name collection -/

theorem mem_fold_insert (s xs : List String) (a : String) :
    a ∈ xs.foldl (fun acc x => if x ∈ acc then acc else acc ++ [x]) s
      ↔ a ∈ s ∨ a ∈ xs := by
  induction xs generalizing s with
  | nil => simp
  | cons x xs ih =>
    rw [List.foldl_cons, ih]
    by_cases hx : x ∈ s
    · rw [if_pos hx]
      constructor
      · rintro (h | h)
        · exact Or.inl h
        · exact Or.inr (List.mem_cons_of_mem _ h)
      · rintro (h | h)
        · exact Or.inl h
        · rcases List.mem_cons.mp h with rfl | h
          · exact Or.inl hx
          · exact Or.inr h
    · rw [if_neg hx]
      constructor
      · rintro (h | h)
        · rcases List.mem_append.mp h with h | h
          · exact Or.inl h
          · rcases List.mem_singleton.mp h with rfl
            exact Or.inr (List.mem_cons_self _ _)
        · exact Or.inr (List.mem_cons_of_mem _ h)
      · rintro (h | h)
        · exact Or.inl (List.mem_append.mpr (Or.inl h))
        · rcases List.mem_cons.mp h with rfl | h
          · exact Or.inl (List.mem_append.mpr (Or.inr (List.mem_singleton.mpr rfl)))
          · exact Or.inr h

theorem nodup_fold_insert (s xs : List String) (h : s.Nodup) :
    (xs.foldl (fun acc x => if x ∈ acc then acc else acc ++ [x]) s).Nodup := by
  induction xs generalizing s with
  | nil => exact h
  | cons x xs ih =>
    rw [List.foldl_cons]
    by_cases hx : x ∈ s
    · rw [if_pos hx]
      exact ih s h
    · rw [if_neg hx]
      apply ih
      rw [List.nodup_append]
      exact ⟨h, List.nodup_singleton x, by simpa using hx⟩

theorem mem_r53Step (records : Dict (List String)) (acc : List String)
    (v? : Option String) (n : String) :
    n ∈ r53Step records acc v? ↔
      n ∈ acc ∨ ∃ v, v? = some v ∧ ∃ ns, dictLookup records v = some ns ∧ n ∈ ns := by
  cases v? with
  | none => simp [r53Step]
  | some v =>
    cases hlook : dictLookup records v with
    | none => simp [r53Step, hlook]
    | some ns =>
      simp only [r53Step, hlook, mem_fold_insert, Option.some.injEq]
      constructor
      · rintro (h | h)
        · exact Or.inl h
        · exact Or.inr ⟨v, rfl, ns, hlook, h⟩
      · rintro (h | ⟨v', rfl, ns', hns', h⟩)
        · exact Or.inl h
        · rw [hlook] at hns'
          rcases Option.some.inj hns' with rfl
          exact Or.inr h

theorem nodup_r53Step (records : Dict (List String)) (acc : List String)
    (v? : Option String) (h : acc.Nodup) : (r53Step records acc v?).Nodup := by
  cases v? with
  | none => exact h
  | some v =>
    cases hlook : dictLookup records v with
    | none => simpa [r53Step, hlook] using h
    | some ns =>
      simp only [r53Step, hlook]
      exact nodup_fold_insert _ _ h

theorem mem_r53_foldl (records : Dict (List String)) (attrs : List (Option String))
    (acc : List String) (n : String) :
    n ∈ attrs.foldl (r53Step records) acc ↔
      n ∈ acc ∨ ∃ v, some v ∈ attrs ∧ ∃ ns, dictLookup records v = some ns ∧ n ∈ ns := by
  induction attrs generalizing acc with
  | nil => simp
  | cons v? attrs ih =>
    rw [List.foldl_cons, ih]
    constructor
    · rintro (h | ⟨v, hv, hrest⟩)
      · rcases (mem_r53Step records acc v? n).mp h with h | ⟨v, rfl, hrest⟩
        · exact Or.inl h
        · exact Or.inr ⟨v, List.mem_cons_self _ _, hrest⟩
      · exact Or.inr ⟨v, List.mem_cons_of_mem _ hv, hrest⟩
    · rintro (h | ⟨v, hv, hrest⟩)
      · exact Or.inl ((mem_r53Step records acc v? n).mpr (Or.inl h))
      · rcases List.mem_cons.mp hv with hv | hv
        · exact Or.inl ((mem_r53Step records acc v? n).mpr (Or.inr ⟨v, hv.symm, hrest⟩))
        · exact Or.inr ⟨v, hv, hrest⟩

/-- C9: `get_instance_route53_names` returns a duplicate-free list that
contains exactly the domain names the record map associates with at least
one of the four address-bearing attributes of the instance, skipping
attributes the instance lacks; order carries no guarantee and only
membership is specified. -/
theorem route53_names_nodup_and_complete (inst : Instance)
    (records : Dict (List String)) :
    (get_instance_route53_names inst records).Nodup ∧
    ∀ n, n ∈ get_instance_route53_names inst records ↔
      ∃ v, some v ∈ [inst.public_dns_name, inst.private_dns_name,
                     inst.ip_address, inst.private_ip_address] ∧
        ∃ ns, dictLookup records v = some ns ∧ n ∈ ns := by
  constructor
  · have main : ∀ (attrs : List (Option String)) (acc : List String), acc.Nodup →
        (attrs.foldl (r53Step records) acc).Nodup := by
      intro attrs
      induction attrs with
      | nil => intro acc h; exact h
      | cons v? attrs ih =>
        intro acc h
        exact ih _ (nodup_r53Step records acc v? h)
    exact main _ [] List.nodup_nil
  · intro n
    rw [show get_instance_route53_names inst records
        = [inst.public_dns_name, inst.private_dns_name,
           inst.ip_address, inst.private_ip_address].foldl (r53Step records) [] from rfl,
      mem_r53_foldl]
    simp

/-! ## Bounding the inventory writes of one add call -/

/-- Invariant carried through the chain of inventory writes of one add call:
relative to the inventory `inv0` at the start of the call, the group `g` is
either untouched, or it is one of the touched groups (`touched` is
instantiated by the caller) and every address in it was already there before
the call or is the destination address `d` written by this call. -/
def StepBound (g : String) (inv0 : Dict (List String)) (d : String) (touched : Prop)
    (dd : Dict (List String)) : Prop :=
  dictLookup dd g = dictLookup inv0 g ∨
  (touched ∧ ∀ a, a ∈ dGetDefault dd g → a ∈ dGetDefault inv0 g ∨ a = d)

theorem dGetDefault_congr (dd inv0 : Dict (List String)) (g : String)
    (h : dictLookup dd g = dictLookup inv0 g) : dGetDefault dd g = dGetDefault inv0 g := by
  rw [dGetDefault, dGetDefault, h]

theorem StepBound_base (g : String) (inv0 : Dict (List String)) (d : String)
    (touched : Prop) : StepBound g inv0 d touched inv0 :=
  Or.inl rfl

theorem StepBound_mem (g : String) (inv0 : Dict (List String)) (d : String)
    (touched : Prop) (dd : Dict (List String)) (h : StepBound g inv0 d touched dd)
    (a : String) (ha : a ∈ dGetDefault dd g) : a ∈ dGetDefault inv0 g ∨ a = d := by
  rcases h with h | ⟨-, hb⟩
  · rw [dGetDefault_congr dd inv0 g h] at ha
    exact Or.inl ha
  · exact hb a ha

theorem StepBound_dAppend (g : String) (inv0 : Dict (List String)) (d : String)
    (touched : Prop) (dd : Dict (List String)) (k : String)
    (h : StepBound g inv0 d touched dd) (hk : g = k → touched) :
    StepBound g inv0 d touched (dAppend dd k d) := by
  by_cases hg : g = k
  · right
    refine ⟨hk hg, ?_⟩
    intro a ha
    subst hg
    rw [dGetDefault_dAppend_self] at ha
    rcases List.mem_append.mp ha with ha | ha
    · exact StepBound_mem g inv0 d touched dd h a ha
    · exact Or.inr (List.mem_singleton.mp ha)
  · rcases h with h | ⟨ht, hb⟩
    · left
      rw [dictLookup_dAppend_ne _ _ _ _ hg, h]
    · right
      refine ⟨ht, ?_⟩
      intro a ha
      rw [dGetDefault_dAppend_ne _ _ _ _ hg] at ha
      exact hb a ha

theorem StepBound_set_singleton (g : String) (inv0 : Dict (List String)) (d : String)
    (touched : Prop) (dd : Dict (List String)) (k : String)
    (h : StepBound g inv0 d touched dd) (hk : g = k → touched) :
    StepBound g inv0 d touched (dictSet dd k [d]) := by
  by_cases hg : g = k
  · right
    refine ⟨hk hg, ?_⟩
    intro a ha
    subst hg
    rw [dGetDefault, dictLookup_set_self] at ha
    exact Or.inr (List.mem_singleton.mp ha)
  · rcases h with h | ⟨ht, hb⟩
    · left
      rw [dictLookup_set_ne _ _ _ _ hg, h]
    · right
      refine ⟨ht, ?_⟩
      intro a ha
      rw [dGetDefault, dictLookup_set_ne _ _ _ _ hg, ← dGetDefault] at ha
      exact hb a ha

theorem StepBound_appendAll {β : Type} (g : String) (inv0 : Dict (List String))
    (d : String) (touched : Prop) (f : β → String) (xs : List β) :
    ∀ (dd : Dict (List String)), StepBound g inv0 d touched dd →
      (∀ b ∈ xs, g = f b → touched) →
      StepBound g inv0 d touched (appendAll f d dd xs) := by
  induction xs with
  | nil =>
    intro dd h _
    exact h
  | cons b xs ih =>
    intro dd h hk
    exact ih (dAppend dd (f b) d)
      (StepBound_dAppend g inv0 d touched dd (f b) h (hk b (List.mem_cons_self _ _)))
      (fun b' hb' => hk b' (List.mem_cons_of_mem _ hb'))

theorem StepBound_keyNameGroup (g : String) (inv0 : Dict (List String)) (d : String)
    (touched : Prop) (dd : Dict (List String)) (o : Option String)
    (h : StepBound g inv0 d touched dd)
    (hk : ∀ kn, o = some kn → g = to_safe ("key_" ++ kn) → touched) :
    StepBound g inv0 d touched (keyNameGroup d dd o) := by
  cases o with
  | none => exact h
  | some kn =>
    simp only [keyNameGroup]
    by_cases hkn : kn ≠ ""
    · rw [if_pos hkn]
      exact StepBound_dAppend g inv0 d touched dd _ h (hk kn rfl)
    · rw [if_neg hkn]
      exact h

theorem StepBound_route53Groups (g : String) (inv0 : Dict (List String)) (d : String)
    (touched : Prop) (dd : Dict (List String)) (inst : Instance)
    (records : Option (Dict (List String)))
    (h : StepBound g inv0 d touched dd)
    (hk : ∀ recs, records = some recs → g ∈ get_instance_route53_names inst recs → touched) :
    StepBound g inv0 d touched (route53Groups inst d dd records) := by
  cases records with
  | none => exact h
  | some recs =>
    simp only [route53Groups]
    by_cases hrecs : recs ≠ []
    · rw [if_pos hrecs]
      exact StepBound_appendAll g inv0 d touched _ _ dd h
        (fun n hn hg => hk recs rfl (hg ▸ hn))
    · rw [if_neg hrecs]
      exact h

theorem StepBound_profileGroup (g : String) (inv0 : Dict (List String)) (d : String)
    (touched : Prop) (dd : Dict (List String)) (o : Option String)
    (h : StepBound g inv0 d touched dd)
    (hk : ∀ arn, o = some arn →
        g = to_safe ("profile_" ++ ((arn.splitOn "/").getLastD "")) → touched) :
    StepBound g inv0 d touched (profileGroup d dd o) := by
  cases o with
  | none => exact h
  | some arn =>
    simp only [profileGroup]
    exact StepBound_dAppend g inv0 d touched dd _ h (hk arn rfl)

theorem StepBound_rdsSecurityGroup (g : String) (inv0 : Dict (List String)) (d : String)
    (touched : Prop) (dd : Dict (List String)) (o : Option String)
    (h : StepBound g inv0 d touched dd)
    (hk : ∀ gname, o = some gname → g = to_safe ("security_group_" ++ gname) → touched) :
    StepBound g inv0 d touched (rdsSecurityGroup d dd o) := by
  cases o with
  | none => exact h
  | some gname =>
    simp only [rdsSecurityGroup]
    exact StepBound_dAppend g inv0 d touched dd _ h (hk gname rfl)

theorem add_instance_inv_eq (hv vv : String) (inst : Instance) (region : String)
    (inv0 : Dict (List String)) (idx : Dict (String × String))
    (records : Option (Dict (List String))) (d : String)
    (h1 : inst.state = "running") (h2 : selectDest hv vv inst = some d) (h3 : d ≠ "") :
    (add_instance hv vv inst region inv0 idx records).1 =
      profileGroup d
        (route53Groups inst d
          (appendAll (fun kv => to_safe ("tag_" ++ kv.1 ++ "=" ++ kv.2)) d
            (appendAll (fun g => to_safe ("security_group_" ++ g)) d
              (keyNameGroup d
                (dAppend
                  (dAppend
                    (dAppend (dictSet inv0 inst.id [d]) region d)
                    inst.placement d)
                  (to_safe ("type_" ++ inst.instance_type)) d)
                inst.key_name)
              inst.groups)
            inst.tags)
          records)
        inst.instance_profile := by
  simp [add_instance, h1, h2, h3]

theorem add_rds_instance_inv_eq (inst : RDSInstance) (region : String)
    (inv0 : Dict (List String)) (idx : Dict (String × String))
    (records : Option (Dict (List String))) (d : String)
    (h1 : inst.status = "available") (h2 : inst.endpoint_addr = some d) (h3 : d ≠ "") :
    (add_rds_instance inst region inv0 idx records).1 =
      dAppend
        (dAppend
          (rdsSecurityGroup d
            (dAppend
              (dAppend
                (dAppend (dictSet inv0 inst.id [d]) region d)
                inst.availability_zone d)
              (to_safe ("type_" ++ inst.instance_class)) d)
            inst.security_group)
          (to_safe ("rds_" ++ inst.engine)) d)
        (to_safe ("rds_parameter_group_" ++ inst.parameter_group)) d := by
  simp [add_rds_instance, h1, h2, h3]

theorem add_instance_StepBound (hv vv : String) (inst : Instance) (region : String)
    (inv0 : Dict (List String)) (idx : Dict (String × String))
    (records : Option (Dict (List String))) (d g : String) (touched : Prop)
    (h1 : inst.state = "running") (h2 : selectDest hv vv inst = some d) (h3 : d ≠ "")
    (hid : g = inst.id → touched)
    (hreg : g = region → touched)
    (hplace : g = inst.placement → touched)
    (htype : g = to_safe ("type_" ++ inst.instance_type) → touched)
    (hkey : ∀ kn, inst.key_name = some kn → g = to_safe ("key_" ++ kn) → touched)
    (hgrp : ∀ gr ∈ inst.groups, g = to_safe ("security_group_" ++ gr) → touched)
    (htag : ∀ kv ∈ inst.tags, g = to_safe ("tag_" ++ kv.1 ++ "=" ++ kv.2) → touched)
    (hrec : ∀ recs, records = some recs →
        g ∈ get_instance_route53_names inst recs → touched)
    (hprof : ∀ arn, inst.instance_profile = some arn →
        g = to_safe ("profile_" ++ ((arn.splitOn "/").getLastD "")) → touched) :
    StepBound g inv0 d touched (add_instance hv vv inst region inv0 idx records).1 := by
  rw [add_instance_inv_eq hv vv inst region inv0 idx records d h1 h2 h3]
  exact StepBound_profileGroup g inv0 d touched _ inst.instance_profile
    (StepBound_route53Groups g inv0 d touched _ inst records
      (StepBound_appendAll g inv0 d touched _ inst.tags _
        (StepBound_appendAll g inv0 d touched _ inst.groups _
          (StepBound_keyNameGroup g inv0 d touched _ inst.key_name
            (StepBound_dAppend g inv0 d touched _ _
              (StepBound_dAppend g inv0 d touched _ _
                (StepBound_dAppend g inv0 d touched _ _
                  (StepBound_set_singleton g inv0 d touched inv0 inst.id
                    (StepBound_base g inv0 d touched) hid)
                  hreg)
                hplace)
              htype)
            hkey)
          hgrp)
        htag)
      hrec)
    hprof

theorem add_rds_instance_StepBound (inst : RDSInstance) (region : String)
    (inv0 : Dict (List String)) (idx : Dict (String × String))
    (records : Option (Dict (List String))) (d g : String) (touched : Prop)
    (h1 : inst.status = "available") (h2 : inst.endpoint_addr = some d) (h3 : d ≠ "")
    (hid : g = inst.id → touched)
    (hreg : g = region → touched)
    (hzone : g = inst.availability_zone → touched)
    (htype : g = to_safe ("type_" ++ inst.instance_class) → touched)
    (hsec : ∀ gname, inst.security_group = some gname →
        g = to_safe ("security_group_" ++ gname) → touched)
    (heng : g = to_safe ("rds_" ++ inst.engine) → touched)
    (hparam : g = to_safe ("rds_parameter_group_" ++ inst.parameter_group) → touched) :
    StepBound g inv0 d touched (add_rds_instance inst region inv0 idx records).1 := by
  rw [add_rds_instance_inv_eq inst region inv0 idx records d h1 h2 h3]
  exact StepBound_dAppend g inv0 d touched _ _
    (StepBound_dAppend g inv0 d touched _ _
      (StepBound_rdsSecurityGroup g inv0 d touched _ inst.security_group
        (StepBound_dAppend g inv0 d touched _ _
          (StepBound_dAppend g inv0 d touched _ _
            (StepBound_dAppend g inv0 d touched _ _
              (StepBound_set_singleton g inv0 d touched inv0 inst.id
                (StepBound_base g inv0 d touched) hid)
              hreg)
            hzone)
          htype)
        hsec)
      heng)
    hparam

theorem addResource_StepBound_true (hv vv region : String)
    (records : Option (Dict (List String)))
    (st : Dict (List String) × Dict (String × String)) (r : Resource) (d g : String)
    (hl : isLive r = true) (hd : destOf hv vv r = some d) (hne : d ≠ "") :
    StepBound g st.1 d True (addResource hv vv region records st r).1 := by
  cases r with
  | ec2 i =>
    exact add_instance_StepBound hv vv i region st.1 st.2 records d g True
      (by simpa [isLive] using hl) (by simpa [destOf] using hd) hne
      (fun _ => trivial) (fun _ => trivial) (fun _ => trivial) (fun _ => trivial)
      (fun _ _ _ => trivial) (fun _ _ _ => trivial) (fun _ _ _ => trivial)
      (fun _ _ _ => trivial) (fun _ _ _ => trivial)
  | rds i =>
    exact add_rds_instance_StepBound i region st.1 st.2 records d g True
      (by simpa [isLive] using hl) (by simpa [destOf] using hd) hne
      (fun _ => trivial) (fun _ => trivial) (fun _ => trivial) (fun _ => trivial)
      (fun _ _ _ => trivial) (fun _ => trivial) (fun _ => trivial)

/-! ## Inventory-index invariant (C4) -/

/-- Invariant relating the two mappings: every address stored in any
inventory group is a key of the index.  Instantiated at the group keyed by a
resource id it is the per-instance-id property of the claim. -/
def InvIdxInvariant (inv : Dict (List String)) (idx : Dict (String × String)) : Prop :=
  ∀ g a, a ∈ dGetDefault inv g → a ∈ dictKeys idx

theorem addResource_preserves_invariant (hv vv region : String)
    (records : Option (Dict (List String)))
    (st : Dict (List String) × Dict (String × String)) (r : Resource)
    (h : InvIdxInvariant st.1 st.2) :
    InvIdxInvariant (addResource hv vv region records st r).1
      (addResource hv vv region records st r).2 := by
  by_cases hw : writesSomething hv vv r = true
  · obtain ⟨hl, d, hd, hne⟩ := (writesSomething_iff hv vv r).mp hw
    intro g a ha
    rw [addResource_index_eq hv vv region records st r d hl hd hne]
    have hsb := addResource_StepBound_true hv vv region records st r d g hl hd hne
    rcases StepBound_mem g st.1 d True _ hsb a ha with hold | rfl
    · exact (mem_dictKeys_set _ _ _ _).mpr (Or.inr (h g a hold))
    · exact (mem_dictKeys_set _ _ _ _).mpr (Or.inl rfl)
  · rw [addResource_skip hv vv region records st r (by simpa using hw)]
    exact h

/-- C4: starting from empty mappings, after any sequence of add calls every
address in the per-instance-id group of a processed resource is a key of the
index; and each single add call preserves the invariant that every address
stored anywhere in the inventory is a key of the index. -/
theorem inventory_id_group_subset_index :
    (∀ (hv vv : String) (records : Option (Dict (List String)))
        (rs : List (String × Resource)), ∀ rr ∈ rs, ∀ a,
        a ∈ dGetDefault (processAll hv vv records rs).1 (resId rr.2) →
        a ∈ dictKeys (processAll hv vv records rs).2) ∧
    (∀ (hv vv region : String) (records : Option (Dict (List String)))
        (st : Dict (List String) × Dict (String × String)) (r : Resource),
        InvIdxInvariant st.1 st.2 →
        InvIdxInvariant (addResource hv vv region records st r).1
          (addResource hv vv region records st r).2) := by
  constructor
  · intro hv vv records rs rr _ a ha
    have main : ∀ (l : List (String × Resource))
        (st : Dict (List String) × Dict (String × String)), InvIdxInvariant st.1 st.2 →
        InvIdxInvariant
          (l.foldl (fun st rr => addResource hv vv rr.1 records st rr.2) st).1
          (l.foldl (fun st rr => addResource hv vv rr.1 records st rr.2) st).2 := by
      intro l
      induction l with
      | nil => intro st h; exact h
      | cons x l ih =>
        intro st h
        exact ih _ (addResource_preserves_invariant hv vv x.1 records st x.2 h)
    exact main rs ([], []) (fun g a ha' => by simp [dGetDefault, dictLookup] at ha')
      (resId rr.2) a ha
  · exact fun hv vv region records st r h =>
      addResource_preserves_invariant hv vv region records st r h

theorem inventory_id_group_subset_index_witness :
    ((("r1" : String), Resource.ec2 (sampleInst "i-1" "h1"))
        ∈ [(("r1" : String), Resource.ec2 (sampleInst "i-1" "h1"))]) ∧
    (("h1" : String) ∈ dGetDefault (processAll "public_dns_name" "private_dns_name" none
        [(("r1" : String), Resource.ec2 (sampleInst "i-1" "h1"))]).1
        (resId (Resource.ec2 (sampleInst "i-1" "h1")))) ∧
    ("h1" : String) ∈ dictKeys (processAll "public_dns_name" "private_dns_name" none
        [(("r1" : String), Resource.ec2 (sampleInst "i-1" "h1"))]).2 :=
  ⟨by decide, by decide,
   inventory_id_group_subset_index.1 "public_dns_name" "private_dns_name" none
     [(("r1" : String), Resource.ec2 (sampleInst "i-1" "h1"))]
     (("r1" : String), Resource.ec2 (sampleInst "i-1" "h1")) (by decide) "h1" (by decide)⟩

/-! ## Group-name shapes (C8) -/

theorem string_data_append (a b : String) : (a ++ b).data = a.data ++ b.data := by
  cases a
  cases b
  rfl

theorem string_append_assoc (a b c : String) : (a ++ b) ++ c = a ++ (b ++ c) := by
  cases a with
  | mk la =>
    cases b with
    | mk lb =>
      cases c with
      | mk lc => exact congrArg String.mk (List.append_assoc la lb lc)

theorem to_safe_fixed_on_prefixes : ∀ p ∈ fixedGroupPrefixes, to_safe p = p := by
  decide

/-- The shapes of group names one add call can touch: the raw instance id,
region, availability zone and Route53 domain names, or a fixed prefix from
the source concatenated with a sanitized value. -/
def emittedGroupForm (region : String) (records : Option (Dict (List String)))
    (r : Resource) (g : String) : Prop :=
  g = resId r ∨ g = region ∨ g = zoneOf r ∨
  (∃ inst recs, r = Resource.ec2 inst ∧ records = some recs ∧
      g ∈ get_instance_route53_names inst recs) ∨
  (∃ p ∈ fixedGroupPrefixes, ∃ w, g = p ++ to_safe w)

theorem emitted_prefixed (region : String) (records : Option (Dict (List String)))
    (r : Resource) (g p w : String) (hp : p ∈ fixedGroupPrefixes)
    (hg : g = to_safe (p ++ w)) : emittedGroupForm region records r g := by
  refine Or.inr (Or.inr (Or.inr (Or.inr ⟨p, hp, w, ?_⟩)))
  rw [hg, to_safe_append, to_safe_fixed_on_prefixes p hp]

/-- C8 (amended): every group whose binding an add call changes is either a
raw-keyed group (the instance id, the region, the availability zone, or a
Route53 domain name, all written unprefixed and unsanitized) or a group of
the form fixed source prefix concatenated with a sanitized attribute
value. -/
theorem group_names_characterization (hv vv region : String)
    (records : Option (Dict (List String)))
    (st : Dict (List String) × Dict (String × String)) (r : Resource) (g : String)
    (hchanged : dictLookup (addResource hv vv region records st r).1 g
        ≠ dictLookup st.1 g) :
    emittedGroupForm region records r g := by
  by_cases hw : writesSomething hv vv r = true
  · obtain ⟨hl, d, hd, hne⟩ := (writesSomething_iff hv vv r).mp hw
    have hsb : StepBound g st.1 d (emittedGroupForm region records r g)
        (addResource hv vv region records st r).1 := by
      cases r with
      | ec2 i =>
        exact add_instance_StepBound hv vv i region st.1 st.2 records d g _
          (by simpa [isLive] using hl) (by simpa [destOf] using hd) hne
          (fun h => Or.inl h)
          (fun h => Or.inr (Or.inl h))
          (fun h => Or.inr (Or.inr (Or.inl h)))
          (fun h => emitted_prefixed region records _ g "type_" i.instance_type
            (by decide) h)
          (fun kn _ h => emitted_prefixed region records _ g "key_" kn (by decide) h)
          (fun gr _ h => emitted_prefixed region records _ g "security_group_" gr
            (by decide) h)
          (fun kv _ h => emitted_prefixed region records _ g "tag_"
            (kv.1 ++ "=" ++ kv.2) (by decide)
            (by rw [h]; exact congrArg to_safe (by simp [string_append_assoc])))
          (fun recs hrecs hmem =>
            Or.inr (Or.inr (Or.inr (Or.inl ⟨i, recs, rfl, hrecs, hmem⟩))))
          (fun arn _ h => emitted_prefixed region records _ g "profile_"
            ((arn.splitOn "/").getLastD "") (by decide) h)
      | rds i =>
        exact add_rds_instance_StepBound i region st.1 st.2 records d g _
          (by simpa [isLive] using hl) (by simpa [destOf] using hd) hne
          (fun h => Or.inl h)
          (fun h => Or.inr (Or.inl h))
          (fun h => Or.inr (Or.inr (Or.inl h)))
          (fun h => emitted_prefixed region records _ g "type_" i.instance_class
            (by decide) h)
          (fun gname _ h => emitted_prefixed region records _ g "security_group_" gname
            (by decide) h)
          (fun h => emitted_prefixed region records _ g "rds_" i.engine (by decide) h)
          (fun h => emitted_prefixed region records _ g "rds_parameter_group_"
            i.parameter_group (by decide) h)
    rcases hsb with h | ⟨ht, -⟩
    · exact absurd h hchanged
    · exact ht
  · rw [addResource_skip hv vv region records st r (by simpa using hw)] at hchanged
    exact absurd rfl hchanged

theorem group_names_characterization_witness :
    (dictLookup (addResource "public_dns_name" "private_dns_name" "us-east-1" none
        (([], []) : Dict (List String) × Dict (String × String))
        (Resource.ec2 (sampleInst "i-1" "h1"))).1 "us-east-1"
      ≠ dictLookup ([] : Dict (List String)) "us-east-1") ∧
    emittedGroupForm "us-east-1" none (Resource.ec2 (sampleInst "i-1" "h1")) "us-east-1" :=
  ⟨by decide,
   group_names_characterization "public_dns_name" "private_dns_name" "us-east-1" none
     (([], []) : Dict (List String) × Dict (String × String))
     (Resource.ec2 (sampleInst "i-1" "h1")) "us-east-1" (by decide)⟩

theorem head_mismatch_no_decomp (c c' : Char) (l l' r : List Char) (hcc : c ≠ c') :
    c :: l ≠ (c' :: l') ++ r := by
  intro h
  rw [List.cons_append] at h
  injection h with h1 _
  exact hcc h1

/-- C8 counterexample: the region group.  Processing one running, addressable
instance fetched from region `us-east-1` adds the group key `us-east-1` to
the inventory, and that key is not any fixed source prefix followed by a
sanitized value. -/
theorem group_names_prefixed_counterexample :
    (("us-east-1" : String) ∈ dictKeys (addResource "public_dns_name" "private_dns_name"
        "us-east-1" none (([], []) : Dict (List String) × Dict (String × String))
        (Resource.ec2 (sampleInst "i-1" "h1"))).1) ∧
    ¬ (∃ p ∈ fixedGroupPrefixes, ∃ w, ("us-east-1" : String) = p ++ to_safe w) := by
  constructor
  · decide
  · rintro ⟨p, hp, w, hw⟩
    have hd := congrArg String.data hw
    rw [string_data_append] at hd
    simp only [fixedGroupPrefixes, List.mem_cons, List.not_mem_nil, or_false] at hp
    rcases hp with rfl | rfl | rfl | rfl | rfl | rfl | rfl
    · exact head_mismatch_no_decomp 'u' 't' _ _ _ (by decide) hd
    · exact head_mismatch_no_decomp 'u' 'k' _ _ _ (by decide) hd
    · exact head_mismatch_no_decomp 'u' 's' _ _ _ (by decide) hd
    · exact head_mismatch_no_decomp 'u' 't' _ _ _ (by decide) hd
    · exact head_mismatch_no_decomp 'u' 'p' _ _ _ (by decide) hd
    · exact head_mismatch_no_decomp 'u' 'r' _ _ _ (by decide) hd
    · exact head_mismatch_no_decomp 'u' 'r' _ _ _ (by decide) hd

end EC2Inventory
